import Mathlib

/-!
Shallow embedding of `mlfinlab/backtest_statistics/backtests.py`
(class `CampbellBacktesting`, the Haircut Sharpe Ratios algorithm).

Modelling conventions:
* Python floats are modelled by `ℚ` (exact arithmetic); `np.floor` by `Int.floor`.
* The transcendental primitives (`x ** 0.5`, `x ** (-0.5)`, `scipy.stats.t.cdf`,
  `scipy.stats.t.ppf`, `scipy.stats.norm.cdf`) are abstracted as explicit
  function parameters (`sqrtQ`, `invSqrt`, `tCdf`, `tPpf`, `normCdf`): no claim
  below depends on their numeric values.
* The random panel produced by `_sample_random_multest` is abstracted as a
  function `tSample : ℕ → ℕ → ℚ` giving the entry at (row, column); the
  orchestrator only ever reads it through slicing, which is modelled exactly.
* Python exception semantics are modelled by `Except BacktestError`:
  `zeroDivision` is the `ZeroDivisionError` that pure-float division by zero
  raises, `valueError` is the broadcast error numpy raises when an array whose
  length differs from 1 is assigned into a scalar slot. `invalidInput` is the
  precondition error the specification postulates; the source never raises it.
* A `none : Option ℚ` entry in the final table models the non-finite float
  (NaN) that numpy division by zero produces in `_sharpe_ratio_haircut`.
-/

/-- Error channel modelling the Python exceptions the source can raise, plus
the `InvalidInputError` postulated by the specification (never raised by the
source). -/
inductive BacktestError where
  | invalidInput : BacktestError
  | zeroDivision : BacktestError
  | valueError : BacktestError
deriving DecidableEq, Repr

/-- Frequency lookup of `_annualized_sharpe_ratio` (lines 142-153): the chain of
`if sampling_frequency == ...` tests giving `times_per_year`; any unrecognized
value falls to the final `else` with value 1. -/
def timesPerYear (samplingFrequency : String) : ℕ :=
  if samplingFrequency = "D" then 360
  else if samplingFrequency = "W" then 52
  else if samplingFrequency = "M" then 12
  else if samplingFrequency = "Q" then 4
  else if samplingFrequency = "A" then 1
  else 1

/-- Embedding of `_annualized_sharpe_ratio` (renamed: Lean-side hygiene).
`invSqrt` embeds `x ** (-0.5)` and `sqrtQ` embeds `x ** (1 / 2)`.
When `autocorr_adjusted` is false and `rho = 1`, the expression
`2 * rho / (1 - rho)` divides a pure Python float by `0.0`, raising
`ZeroDivisionError`; this is the `zeroDivision` branch. -/
def annualized_sr (invSqrt sqrtQ : ℚ → ℚ) (sharpe : ℚ) (samplingFrequency : String)
    (rho : ℚ) (annualized autocorrAdjusted : Bool) : Except BacktestError ℚ :=
  let T : ℕ := timesPerYear samplingFrequency
  let annualMultiplier : ℚ := if annualized then 1 else sqrtQ T
  if autocorrAdjusted then
    Except.ok (sharpe * annualMultiplier * 1)
  else if (1 : ℚ) - rho = 0 then
    Except.error BacktestError.zeroDivision
  else
    Except.ok (sharpe * annualMultiplier *
      invSqrt (1 + (2 * rho / (1 - rho)) *
        (1 - (1 - rho ^ T) / ((T : ℚ) * (1 - rho)))))

/-- Embedding of `_monthly_observations` (lines 183-196): the same
`if sampling_frequency == ...` chain; note the final `else` (misspecified
frequency) computes `np.floor(num_obs)`, without the `* 12 / freq` conversion. -/
def monthly_observations (numObs : ℚ) (samplingFrequency : String) : ℚ :=
  if samplingFrequency = "D" then ((⌊numObs * 12 / 360⌋ : ℤ) : ℚ)
  else if samplingFrequency = "W" then ((⌊numObs * 12 / 52⌋ : ℤ) : ℚ)
  else if samplingFrequency = "M" then ((⌊numObs * 12 / 12⌋ : ℤ) : ℚ)
  else if samplingFrequency = "Q" then ((⌊numObs * 12 / 4⌋ : ℤ) : ℚ)
  else if samplingFrequency = "A" then ((⌊numObs * 12 / 1⌋ : ℤ) : ℚ)
  else ((⌊numObs⌋ : ℤ) : ℚ)

/-- The literal `parameter_levels` table of `_parameter_calculation`
(lines 100-104), rows `[rho, n_simulations, prob_zero_mean, lambd]`. -/
def parameter_levels : List (List ℚ) :=
  [[0, 1295, 3.9660 * 0.1, 5.4995 * 0.001],
   [0.2, 1377, 4.4589 * 0.1, 5.5508 * 0.001],
   [0.4, 1476, 4.8604 * 0.1, 5.5413 * 0.001],
   [0.6, 1773, 5.9902 * 0.1, 5.5512 * 0.001],
   [0.8, 3109, 8.3901 * 0.1, 5.5956 * 0.001]]

/-- Componentwise sum of two numpy row vectors. -/
def vAdd (a b : List ℚ) : List ℚ := List.zipWith (· + ·) a b

/-- Scalar multiple of a numpy row vector. -/
def vSMul (c : ℚ) (a : List ℚ) : List ℚ := a.map (fun x => c * x)

/-- Embedding of `_parameter_calculation` (lines 107-122): the if/elif chain of
piecewise-linear interpolation, with the misspecification fallbacks to row 1
and the `rho < 1.0` branch reusing the previous segment's formula. -/
def parameter_calculation (rho : ℚ) : List ℚ :=
  if rho < 0 then parameter_levels.getD 1 []
  else if rho < 0.2 then
    vAdd (vSMul ((0.2 - rho) / 0.2) (parameter_levels.getD 0 []))
         (vSMul ((rho - 0) / 0.2) (parameter_levels.getD 1 []))
  else if rho < 0.4 then
    vAdd (vSMul ((0.4 - rho) / 0.2) (parameter_levels.getD 1 []))
         (vSMul ((rho - 0.2) / 0.2) (parameter_levels.getD 2 []))
  else if rho < 0.6 then
    vAdd (vSMul ((0.6 - rho) / 0.2) (parameter_levels.getD 2 []))
         (vSMul ((rho - 0.4) / 0.2) (parameter_levels.getD 3 []))
  else if rho < 0.8 then
    vAdd (vSMul ((0.8 - rho) / 0.2) (parameter_levels.getD 3 []))
         (vSMul ((rho - 0.6) / 0.2) (parameter_levels.getD 4 []))
  else if rho < 1.0 then
    vAdd (vSMul ((0.8 - rho) / 0.2) (parameter_levels.getD 3 []))
         (vSMul ((rho - 0.6) / 0.2) (parameter_levels.getD 4 []))
  else parameter_levels.getD 1 []

/-- Claim C8: `_parameter_calculation` evaluated exactly at the anchor inputs
`rho = 0.2` and `rho = 0.4` returns exactly the literal table rows
`[0.2, 1377, 0.44589, 0.0055508]` and `[0.4, 1476, 0.48604, 0.0055413]`
(the interpolation weights reduce to 1 and 0 at exact anchors). -/
theorem parameter_calculation_anchors :
    parameter_calculation 0.2 = [0.2, 1377, 0.44589, 0.0055508] ∧
    parameter_calculation 0.4 = [0.4, 1476, 0.48604, 0.0055413] := by
  constructor <;> norm_num [parameter_calculation, parameter_levels, vAdd, vSMul]

/-- Python `max` of a nonempty list (value on `[]` is an out-of-contract
default; `_holm_method` only applies it to nonempty prefixes). -/
def listMax (l : List ℚ) : ℚ := l.foldl max (l.headD 0)

/-- The inner loop of `_holm_method` (lines 215-217): the terms
`(num_mult_test + 1 - j + 1) * all_p_values[j - 1]` for `j = 1..i`,
re-indexed with `j0 = j - 1` running over `List.range i`. -/
def holmTerms (allP : List ℚ) (M i : ℕ) : List ℚ :=
  (List.range i).map (fun j => ((M + 1 - j : ℕ) : ℚ) * allP.getD j 0)

/-- The `p_holm_values` array of `_holm_method` (lines 209-219): entry `k`
(rank `i = k + 1`) is `min(max(p_adjusted_holm), 1)` over the prefix of
length `i`. -/
def holmValuesList (allP : List ℚ) (M : ℕ) : List ℚ :=
  (List.range (M + 1)).map (fun k => min (listMax (holmTerms allP M (k + 1))) 1)

/-- numpy boolean-mask selection `vals[keys == pVal]` for two arrays of equal
length (lines 222 and 258). -/
def maskSelect (vals keys : List ℚ) (pVal : ℚ) : List ℚ :=
  ((keys.zip vals).filter (fun x => decide (x.1 = pVal))).map (fun x => x.2)

/-- Embedding of `_holm_method` (lines 199-225): mask-select the adjusted
values at the entries equal to `p_val` and take element `[0]` (Python raises
`IndexError` when the selection is empty; the orchestrator always passes a
list containing `p_val`, and `headD 0` is the out-of-contract default). -/
def holm_method (allP : List ℚ) (M : ℕ) (pVal : ℚ) : ℚ :=
  (maskSelect (holmValuesList allP M) allP pVal).headD 0

/-- The BHY constant `c = sum(1 / index_vector)` over `1..num_mult_test`
(lines 242-243). -/
def harmonicC (M : ℕ) : ℚ :=
  ((List.range M).map (fun k => 1 / ((k + 1 : ℕ) : ℚ))).sum

/-- The backward recursion of `_bhy_method` (lines 246-255): `bhyValueAux k` is
the adjusted value at rank `i = M + 1 - k`. At the top rank the raw last
p-value is kept (`all_p_values[-1]`, i.e. `getLastD`); below, each value is
`min(((M + 1) * c / i) * all_p_values[i - 1], p_previous)`. -/
def bhyValueAux (allP : List ℚ) (M : ℕ) (c : ℚ) : ℕ → ℚ
  | 0 => allP.getLastD 0
  | k + 1 =>
    min ((((M : ℚ) + 1) * c / ((M - k : ℕ) : ℚ)) * allP.getD (M - k - 1) 0)
        (bhyValueAux allP M c k)

/-- The `p_bhy_values` array of `_bhy_method`, in rank order 1..M+1 (the code
builds it by prepending, so index `k` holds rank `k + 1`). -/
def bhyValuesList (allP : List ℚ) (M : ℕ) (c : ℚ) : List ℚ :=
  (List.range (M + 1)).map (fun k => bhyValueAux allP M c (M - k))

/-- Embedding of `_bhy_method` (lines 228-261): unlike `_holm_method`, the
masked selection `p_bhy_values[all_p_values == p_val]` is returned whole
(no `[0]`), so the result is an array of all matching adjusted values. -/
def bhy_method (allP : List ℚ) (M : ℕ) (pVal : ℚ) : List ℚ :=
  maskSelect (bhyValuesList allP M (harmonicC M)) allP pVal

theorem listMax_append_singleton (l : List ℚ) (x : ℚ) (h : l ≠ []) :
    listMax (l ++ [x]) = max (listMax l) x := by
  cases l with
  | nil => exact absurd rfl h
  | cons a t =>
    simp [listMax, List.foldl_append]

theorem listMax_holmTerms_mono (allP : List ℚ) (M i : ℕ) :
    listMax (holmTerms allP M (i + 1)) ≤ listMax (holmTerms allP M (i + 2)) := by
  have hne : holmTerms allP M (i + 1) ≠ [] := by
    simp [holmTerms, List.range_succ]
  have hsplit : holmTerms allP M (i + 2) =
      holmTerms allP M (i + 1) ++ [((M + 1 - (i + 1) : ℕ) : ℚ) * allP.getD (i + 1) 0] := by
    simp [holmTerms, List.range_succ]
  rw [hsplit, listMax_append_singleton _ _ hne]
  exact le_max_left _ _

theorem bhyValueAux_antitone (allP : List ℚ) (M : ℕ) (c : ℚ) :
    ∀ {j k : ℕ}, j ≤ k → bhyValueAux allP M c k ≤ bhyValueAux allP M c j := by
  intro j k h
  induction k with
  | zero => simp [Nat.le_zero.mp h]
  | succ n ih =>
    rcases Nat.eq_or_lt_of_le h with rfl | hlt
    · exact le_refl _
    · exact le_trans (min_le_right _ _) (ih (Nat.lt_succ_iff.mp hlt))

/-- Claim C6: the intermediate adjusted sequence built by the Holm method
(running maximum of `(M - j + 2) * p_(j)` capped at 1) and the intermediate
adjusted sequence built by the BHY method (backward cumulative minimum starting
from the raw top-rank p-value) are each monotone non-decreasing in rank order;
proved here for every input array and every constant `c`, in particular for
every ascending-sorted array of `num_mult_test + 1` p-values. -/
theorem holm_bhy_sequences_sorted (allP : List ℚ) (M : ℕ) (c : ℚ) :
    List.Sorted (· ≤ ·) (holmValuesList allP M) ∧
    List.Sorted (· ≤ ·) (bhyValuesList allP M c) := by
  have hholm : ∀ {a b : ℕ}, a ≤ b →
      min (listMax (holmTerms allP M (a + 1))) 1 ≤
        min (listMax (holmTerms allP M (b + 1))) 1 := by
    intro a b h
    induction b with
    | zero => simp [Nat.le_zero.mp h]
    | succ n ih =>
      rcases Nat.eq_or_lt_of_le h with rfl | hlt
      · exact le_refl _
      · exact le_trans (ih (Nat.lt_succ_iff.mp hlt))
          (min_le_min (listMax_holmTerms_mono allP M n) (le_refl 1))
  constructor
  · exact (List.pairwise_lt_range (M + 1)).map _
      (fun a b hab => hholm (le_of_lt hab))
  · exact (List.pairwise_lt_range (M + 1)).map _
      (fun a b hab => bhyValueAux_antitone allP M c (Nat.sub_le_sub_left (le_of_lt hab) M))

/-- Claim C3 counterexample: for the unrecognized frequency value `"X"` and
`num_obs = 1`, `_monthly_observations` returns `floor(1) = 1` whereas the
Annual frequency returns `floor(1 * 12 / 1) = 12`, so the two lookups do not
both behave as for the Annual frequency. -/
theorem monthly_obs_misspecified_cex :
    monthly_observations 1 "X" ≠ monthly_observations 1 "A" := by
  norm_num [monthly_observations]
  decide

/-- Claim C3 (amended): for every sampling-frequency value outside
{'D','W','M','Q','A'}, `_annualized_sharpe_ratio` uses `times_per_year = 1`
(the same value as for 'A'), but `_monthly_observations` computes
`floor(num_obs)` — the same conversion as for the Monthly frequency 'M',
not the Annual one. -/
theorem misspecified_frequency_amended (samplingFrequency : String)
    (h : samplingFrequency ∉ (["D", "W", "M", "Q", "A"] : List String)) (numObs : ℚ) :
    timesPerYear samplingFrequency = timesPerYear "A" ∧
    monthly_observations numObs samplingFrequency = ((⌊numObs⌋ : ℤ) : ℚ) ∧
    monthly_observations numObs samplingFrequency = monthly_observations numObs "M" := by
  simp only [List.mem_cons, List.mem_singleton, not_or] at h
  obtain ⟨h1, h2, h3, h4, h5⟩ := h
  have harg : numObs * 12 / 12 = numObs := by ring
  refine ⟨?_, ?_, ?_⟩ <;>
    simp [timesPerYear, monthly_observations, h1, h2, h3, h4, h5, harg]

theorem misspecified_frequency_amended_witness :
    ("X" : String) ∉ (["D", "W", "M", "Q", "A"] : List String) ∧
    timesPerYear "X" = timesPerYear "A" ∧
    monthly_observations 10 "X" = ((⌊(10 : ℚ)⌋ : ℤ) : ℚ) ∧
    monthly_observations 10 "X" = monthly_observations 10 "M" :=
  ⟨by decide, misspecified_frequency_amended "X" (by decide) 10⟩

/-- The Bonferroni adjusted p-value `np.minimum(num_mult_test * p_val, 1)`
(line 361). -/
def bonferroni (numMultTest : ℕ) (pVal : ℚ) : ℚ :=
  min ((numMultTest : ℕ) * pVal : ℚ) 1

/-- Claim C5: for every raw p-value `p` (a p-value: `0 ≤ p ≤ 1`) and every
positive `num_mult_test`, the Bonferroni adjusted p-value
`min(num_mult_test * p, 1)` is `≥ p`, `≤ 1`, and monotone non-decreasing as
`num_mult_test` increases with `p` held fixed. -/
theorem bonferroni_bounds_mono (m m2 : ℕ) (p : ℚ) (h0 : 0 ≤ p) (h1 : p ≤ 1)
    (hm : 1 ≤ m) (hm2 : m ≤ m2) :
    p ≤ bonferroni m p ∧ bonferroni m p ≤ 1 ∧ bonferroni m p ≤ bonferroni m2 p := by
  refine ⟨le_min ?_ h1, min_le_right _ _, min_le_min ?_ (le_refl 1)⟩
  · calc p = 1 * p := (one_mul p).symm
      _ ≤ (m : ℚ) * p := by
        apply mul_le_mul_of_nonneg_right _ h0
        exact_mod_cast hm
  · apply mul_le_mul_of_nonneg_right _ h0
    exact_mod_cast hm2

theorem bonferroni_bounds_mono_witness :
    (1 / 2 : ℚ) ≤ bonferroni 2 (1 / 2) ∧ bonferroni 2 (1 / 2) ≤ 1 ∧
    bonferroni 2 (1 / 2) ≤ bonferroni 5 (1 / 2) :=
  bonferroni_bounds_mono 2 5 (1 / 2) (by norm_num) (by norm_num)
    (by norm_num) (by norm_num)

/-- Claim C7: for every Sharpe ratio value, every valid frequency code in
{'D','W','M','Q','A'}, and every autocorrelation value, `_annualized_sharpe_ratio`
called with `annualized = True` and `autocorr_adjusted = True` returns the
input Sharpe ratio unchanged (both multipliers are 1). -/
theorem annualized_sr_noop (invSqrt sqrtQ : ℚ → ℚ) (sharpe rho : ℚ)
    (samplingFrequency : String)
    (h : samplingFrequency ∈ (["D", "W", "M", "Q", "A"] : List String)) :
    annualized_sr invSqrt sqrtQ sharpe samplingFrequency rho true true =
      Except.ok sharpe := by
  simp [annualized_sr]

theorem annualized_sr_noop_witness :
    ("D" : String) ∈ (["D", "W", "M", "Q", "A"] : List String) ∧
    annualized_sr id id 5 "D" (3 / 4) true true = Except.ok 5 :=
  ⟨by decide, annualized_sr_noop id id 5 (3 / 4) "D" (by decide)⟩

/-- The trial count of the orchestrator (line 320):
`int((np.floor(num_mult_test / parameters[1]) + 1) * np.floor(parameters[1] + 1))`;
the product of the two floors is integral, so `int(...)` is exact. -/
def numTrails (numMultTest : ℕ) (n : ℚ) : ℤ :=
  (⌊(numMultTest : ℚ) / n⌋ + 1) * ⌊n + 1⌋

/-- Length of the numpy slice `t_sample[s, 1:(num_mult_test + 1)]` (line 342)
for a row of length `nT`: indices 1 to `min(num_mult_test + 1, nT) - 1`. -/
def sliceCount (numMultTest : ℕ) (nT : ℤ) : ℕ :=
  min (numMultTest + 1) nT.toNat - 1

/-- Claim C4: for every positive integer `num_mult_test` and every positive
`n_trials` table parameter, the number of simulation trials
`int((floor(num_mult_test / n) + 1) * floor(n + 1))` is at least
`num_mult_test + 1`, so each panel row provides at least `num_mult_test`
comparison statistics (the slice `[1 : num_mult_test + 1]` has exactly
`num_mult_test` entries) in addition to the inserted real p-value. -/
theorem num_trails_lower_bound (m : ℕ) (n : ℚ) (hm : 1 ≤ m) (hn : 0 < n) :
    (m : ℤ) + 1 ≤ numTrails m n ∧ sliceCount m (numTrails m n) = m := by
  have hq : (0 : ℤ) ≤ ⌊(m : ℚ) / n⌋ :=
    Int.floor_nonneg.mpr (div_nonneg (by positivity) (le_of_lt hn))
  have h2 : n < (⌊n + 1⌋ : ℚ) := by
    rw [show ⌊n + 1⌋ = ⌊n⌋ + 1 by exact_mod_cast Int.floor_add_one n]
    push_cast
    exact Int.lt_floor_add_one n
  have hfpos : (0 : ℚ) < ((⌊(m : ℚ) / n⌋ + 1 : ℤ) : ℚ) := by
    have : (0 : ℤ) < ⌊(m : ℚ) / n⌋ + 1 := by omega
    exact_mod_cast this
  have hmain : (m : ℚ) < (((⌊(m : ℚ) / n⌋ + 1) * ⌊n + 1⌋ : ℤ) : ℚ) := by
    calc (m : ℚ) = ((m : ℚ) / n) * n := by field_simp
      _ < ((⌊(m : ℚ) / n⌋ : ℚ) + 1) * n := by
          exact mul_lt_mul_of_pos_right (Int.lt_floor_add_one ((m : ℚ) / n)) hn
      _ = ((⌊(m : ℚ) / n⌋ + 1 : ℤ) : ℚ) * n := by push_cast; ring
      _ ≤ ((⌊(m : ℚ) / n⌋ + 1 : ℤ) : ℚ) * ((⌊n + 1⌋ : ℤ) : ℚ) := by
          exact mul_le_mul_of_nonneg_left (le_of_lt h2) (le_of_lt hfpos)
      _ = (((⌊(m : ℚ) / n⌋ + 1) * ⌊n + 1⌋ : ℤ) : ℚ) := by push_cast; ring
  have hint : (m : ℤ) < (⌊(m : ℚ) / n⌋ + 1) * ⌊n + 1⌋ := by exact_mod_cast hmain
  have hge : (m : ℤ) + 1 ≤ numTrails m n := by
    unfold numTrails
    omega
  refine ⟨hge, ?_⟩
  unfold sliceCount numTrails
  unfold numTrails at hge
  omega

theorem num_trails_lower_bound_witness :
    (100 : ℤ) + 1 ≤ numTrails 100 1295 ∧ sliceCount 100 (numTrails 100 1295) = 100 :=
  num_trails_lower_bound 100 1295 (by norm_num) (by norm_num)

/-- The numpy slice `t_sample[simulation_number - 1, 1:(num_mult_test + 1)]`
(line 342): for a sufficiently long row this reads the entries at column
indices 1..count of row `s` — the slice starts at column 1, not column 0. -/
def selectSimulatedTrials (tSample : ℕ → ℕ → ℚ) (s count : ℕ) : List ℚ :=
  (List.range count).map (fun j => tSample s (j + 1))

/-- Modelled from the spec: "use the first `num_mult_test` of them as other
trials" — the first `count` entries of row `s`, i.e. column indices
0..count-1. Stated only for comparison with `selectSimulatedTrials`. -/
def specSelectTrials (tSample : ℕ → ℕ → ℚ) (s count : ℕ) : List ℚ :=
  (List.range count).map (fun j => tSample s j)

/-- Row `s` of the simulated panel, as the list of its `len` entries. -/
def panelRow (tSample : ℕ → ℕ → ℚ) (s len : ℕ) : List ℚ :=
  (List.range len).map (fun j => tSample s j)

/-- One Monte Carlo repetition's combined sorted p-value list (lines 342-350):
convert the sliced simulated t-statistics to p-values via
`2 * (1 - ss.norm.cdf(t, 0, 1))`, append the real strategy's `p_val`, and sort
ascending. -/
def repetitionPValues (normCdf : ℚ → ℚ) (tSample : ℕ → ℕ → ℚ) (pVal : ℚ)
    (count s : ℕ) : List ℚ :=
  List.insertionSort (· ≤ ·)
    ((selectSimulatedTrials tSample s count).map (fun t => 2 * (1 - normCdf t)) ++ [pVal])

/-- Claim C2 counterexample: on the panel whose row 0 is `[5, 0, 0, ...]`,
the slice the orchestrator actually uses (starting at column 1) differs from
the first `num_mult_test = 1` entries of the row. -/
theorem select_trials_skips_first_cex :
    selectSimulatedTrials (fun _ j => if j = 0 then 5 else 0) 0 1 ≠
      specSelectTrials (fun _ j => if j = 0 then 5 else 0) 0 1 := by
  have h1 : List.range 1 = [0] := rfl
  norm_num [selectSimulatedTrials, specSelectTrials, h1]

/-- Claim C2 (amended): in every Monte Carlo repetition, the multiple-testing
corrector uses the `num_mult_test` entries of the selected simulated panel row
at column indices 1..num_mult_test — i.e. it skips the row's first entry —
as the "other trials" whose absolute t-statistics are converted to p-values
before the real strategy's p-value is appended and sorted. -/
theorem select_trials_amended (tSample : ℕ → ℕ → ℚ) (normCdf : ℚ → ℚ) (pVal : ℚ)
    (s count len : ℕ) (h : count + 1 ≤ len) :
    selectSimulatedTrials tSample s count = ((panelRow tSample s len).drop 1).take count ∧
    repetitionPValues normCdf tSample pVal count s =
      List.insertionSort (· ≤ ·)
        ((((panelRow tSample s len).drop 1).take count).map (fun t => 2 * (1 - normCdf t))
          ++ [pVal]) := by
  have key : selectSimulatedTrials tSample s count =
      ((panelRow tSample s len).drop 1).take count := by
    apply List.ext_getElem?
    intro i
    simp only [selectSimulatedTrials, panelRow, List.getElem?_take, List.getElem?_drop,
      List.getElem?_map, List.getElem?_range]
    by_cases hi : i < count
    · rw [List.getElem?_range hi, List.getElem?_range (show 1 + i < len by omega)]
      simp [hi, Nat.add_comm]
    · simp [hi, if_neg]
      omega
  exact ⟨key, by rw [repetitionPValues, key]⟩

theorem select_trials_amended_witness :
    selectSimulatedTrials (fun _ _ => 0) 0 1 =
      ((panelRow (fun _ _ => 0) 0 2).drop 1).take 1 ∧
    repetitionPValues id (fun _ _ => 0) 0 1 0 =
      List.insertionSort (· ≤ ·)
        ((((panelRow (fun _ _ => 0) 0 2).drop 1).take 1).map (fun t => 2 * (1 - id t))
          ++ [0]) :=
  select_trials_amended (fun _ _ => 0) id 0 0 1 2 (by norm_num)

/-- numpy `np.median`: sort ascending; middle element for odd length, mean of
the two middle elements for even length. (`np.median` of an empty array is
NaN; the orchestrator only applies it to arrays of length `simulations`, and
the theorems below assume `simulations ≥ 1`.) -/
def npMedian (l : List ℚ) : ℚ :=
  let s := List.insertionSort (· ≤ ·) l
  if l.length % 2 = 1 then s.getD (l.length / 2) 0
  else (s.getD (l.length / 2 - 1) 0 + s.getD (l.length / 2) 0) / 2

/-- Embedding of `_sharpe_ratio_haircut` (lines 264-282). The haircut
`(sr_annual - sr_adjusted) / sr_annual * 100` is a numpy float division, which
yields a non-finite value (no exception) when `sr_annual = 0`; that outcome is
modelled as `none`. -/
def sharpe_ratio_haircut (tPpf : ℚ → ℚ → ℚ) (sqrtQ : ℚ → ℚ)
    (pVal monthlyObs srAnnual : ℚ) : ℚ × Option ℚ :=
  let zScore := tPpf (1 - pVal / 2) (monthlyObs - 1)
  let srAdjusted := zScore / sqrtQ monthlyObs * sqrtQ 12
  (srAdjusted,
    if srAnnual = 0 then none
    else some ((srAnnual - srAdjusted) / srAnnual * 100))

/-- numpy assignment of an array into the scalar slot `p_bhy[s]` (line 356):
succeeds only for a length-1 array; any other length raises a broadcast
`ValueError`. -/
def scalarAssign : List ℚ → Except BacktestError ℚ
  | [v] => Except.ok v
  | _ => Except.error BacktestError.valueError

/-- The simulation loop's sequence of scalar assignments `p_bhy[s] = ...`
(lines 336-356): the first repetition whose `_bhy_method` result is not a
length-1 array raises. -/
def collectBhy : List (ℚ × List ℚ) → Except BacktestError (List ℚ)
  | [] => Except.ok []
  | r :: rest =>
    match scalarAssign r.2 with
    | Except.error e => Except.error e
    | Except.ok v =>
      match collectBhy rest with
      | Except.error e => Except.error e
      | Except.ok vs => Except.ok (v :: vs)

/-- The final table construction (lines 358-377): the row of adjusted p-values
`[Bonferroni, median Holm, median BHY, their mean]`, then the rows of adjusted
Sharpe ratios and haircut percentages obtained from `_sharpe_ratio_haircut`
column by column. -/
def buildTable (tPpf : ℚ → ℚ → ℚ) (sqrtQ : ℚ → ℚ) (numMultTest : ℕ) (pVal : ℚ)
    (pHolm pBhy : List ℚ) (monthlyObs srAnnual : ℚ) : List (List (Option ℚ)) :=
  let pValAdj : List ℚ :=
    [bonferroni numMultTest pVal, npMedian pHolm, npMedian pBhy,
     (bonferroni numMultTest pVal + npMedian pHolm + npMedian pBhy) / 3]
  let pairs := pValAdj.map
    (fun p => sharpe_ratio_haircut tPpf sqrtQ p monthlyObs srAnnual)
  [pValAdj.map some, pairs.map (fun x => some x.1), pairs.map (fun x => x.2)]

/-- The real strategy's p-value (lines 324-329): monthly Sharpe ratio
`sr_annual / 12 ** (1 / 2)`, t-statistic `sr_monthly * monthly_obs ** (1 / 2)`,
p-value `2 * (1 - ss.t.cdf(t_ratio, monthly_obs - 1))`. -/
def realPVal (tCdf : ℚ → ℚ → ℚ) (sqrtQ : ℚ → ℚ) (srAnnual monthlyObs : ℚ) : ℚ :=
  2 * (1 - tCdf (srAnnual / sqrtQ 12 * sqrtQ monthlyObs) (monthlyObs - 1))

/-- The per-repetition results of the simulation loop (lines 336-356): for each
row `s`, the pair of the `_holm_method` scalar and the `_bhy_method` array on
that repetition's combined sorted p-values. -/
def repResults (normCdf : ℚ → ℚ) (tSample : ℕ → ℕ → ℚ) (pVal : ℚ)
    (count numMultTest simulations : ℕ) : List (ℚ × List ℚ) :=
  (List.range simulations).map (fun s =>
    (holm_method (repetitionPValues normCdf tSample pVal count s) numMultTest pVal,
     bhy_method (repetitionPValues normCdf tSample pVal count s) numMultTest pVal))

/-- The orchestrator's body after the Sharpe-ratio normalization succeeded
(lines 312-377), with `srAnnual` the normalized annual Sharpe ratio. -/
def haircutCore (simulations : ℕ) (sqrtQ : ℚ → ℚ) (tCdf tPpf : ℚ → ℚ → ℚ)
    (normCdf : ℚ → ℚ) (tSample : ℕ → ℕ → ℚ) (samplingFrequency : String)
    (numObs : ℚ) (numMultTest : ℕ) (rho : ℚ) (srAnnual : ℚ) :
    Except BacktestError (List (List (Option ℚ))) :=
  match collectBhy (repResults normCdf tSample
      (realPVal tCdf sqrtQ srAnnual (monthly_observations numObs samplingFrequency))
      (sliceCount numMultTest
        (numTrails numMultTest ((parameter_calculation rho).getD 1 0)))
      numMultTest simulations) with
  | Except.error e => Except.error e
  | Except.ok pBhy =>
    Except.ok (buildTable tPpf sqrtQ numMultTest
      (realPVal tCdf sqrtQ srAnnual (monthly_observations numObs samplingFrequency))
      ((repResults normCdf tSample
        (realPVal tCdf sqrtQ srAnnual (monthly_observations numObs samplingFrequency))
        (sliceCount numMultTest
          (numTrails numMultTest ((parameter_calculation rho).getD 1 0)))
        numMultTest simulations).map Prod.fst)
      pBhy (monthly_observations numObs samplingFrequency) srAnnual)

/-- Embedding of the orchestrator `haircut_sharpe_ratios` (lines 284-377).
The source performs no input validation: its only fallible steps are the
autocorrelation adjustment (`ZeroDivisionError` at `rho_a = 1`) and the
scalar assignment of the `_bhy_method` array result. -/
def haircut_sharpe_ratios (simulations : ℕ) (invSqrt sqrtQ : ℚ → ℚ)
    (tCdf tPpf : ℚ → ℚ → ℚ) (normCdf : ℚ → ℚ) (tSample : ℕ → ℕ → ℚ)
    (samplingFrequency : String) (numObs sharpe : ℚ)
    (annualized autocorrAdjusted : Bool) (rhoA : ℚ) (numMultTest : ℕ)
    (rho : ℚ) : Except BacktestError (List (List (Option ℚ))) :=
  match annualized_sr invSqrt sqrtQ sharpe samplingFrequency rhoA
      annualized autocorrAdjusted with
  | Except.error e => Except.error e
  | Except.ok srAnnual =>
    haircutCore simulations sqrtQ tCdf tPpf normCdf tSample samplingFrequency
      numObs numMultTest rho srAnnual

theorem maskSelect_cons (v : ℚ) (vs : List ℚ) (k : ℚ) (ks : List ℚ) (p : ℚ) :
    maskSelect (v :: vs) (k :: ks) p =
      (if k = p then [v] else []) ++ maskSelect vs ks p := by
  by_cases hk : k = p <;> simp [maskSelect, hk]

theorem maskSelect_length (keys : List ℚ) (p : ℚ) :
    ∀ vals : List ℚ, vals.length = keys.length →
      (maskSelect vals keys p).length = keys.countP (fun a => decide (a = p)) := by
  induction keys with
  | nil => intro vals h; simp [maskSelect]
  | cons k ks ih =>
    intro vals h
    cases vals with
    | nil => simp at h
    | cons v vs =>
      rw [maskSelect_cons]
      by_cases hk : k = p <;>
        simp [hk, List.countP_cons, ih vs (by simpa using h), Nat.add_comm]

theorem maskSelect_first (keys : List ℚ) (p : ℚ) :
    ∀ vals : List ℚ, vals.length = keys.length →
      0 < keys.countP (fun a => decide (a = p)) →
      (maskSelect vals keys p).headD 0 =
        vals.getD (keys.findIdx (fun a => decide (a = p))) 0 := by
  induction keys with
  | nil => intro vals h hc; simp at hc
  | cons k ks ih =>
    intro vals h hc
    cases vals with
    | nil => simp at h
    | cons v vs =>
      rw [maskSelect_cons]
      by_cases hk : k = p
      · simp [hk, List.findIdx_cons]
      · have hc' : 0 < ks.countP (fun a => decide (a = p)) := by
          simpa [List.countP_cons, hk] using hc
        have hgoal := ih vs (by simpa using h) hc'
        simpa [hk, List.findIdx_cons] using hgoal

theorem scalarAssign_ok (l : List ℚ) :
    (∃ v, scalarAssign l = Except.ok v) ↔ l.length = 1 := by
  match l with
  | [] => simp [scalarAssign]
  | [v] => simp [scalarAssign]
  | v :: w :: rest => simp [scalarAssign]

theorem holmValuesList_length (allP : List ℚ) (M : ℕ) :
    (holmValuesList allP M).length = M + 1 := by
  simp [holmValuesList]

theorem bhyValuesList_length (allP : List ℚ) (M : ℕ) (c : ℚ) :
    (bhyValuesList allP M c).length = M + 1 := by
  simp [bhyValuesList]

/-- Claim C10: on a sorted p-value array of length `num_mult_test + 1`,
`_bhy_method` returns one adjusted value per entry equal to `p_val` (a single
value exactly when the match is unique), `_holm_method` always returns the
single adjusted value at the first matching index, and the orchestrator's
scalar-slot assignment of the BHY result succeeds exactly when the match is
unique. -/
theorem bhy_scalar_vs_vector (allP : List ℚ) (M : ℕ) (pVal : ℚ)
    (h : allP.length = M + 1) :
    (bhy_method allP M pVal).length = allP.countP (fun a => decide (a = pVal)) ∧
    (allP.countP (fun a => decide (a = pVal)) = 1 →
      ∃ v, bhy_method allP M pVal = [v]) ∧
    (0 < allP.countP (fun a => decide (a = pVal)) →
      holm_method allP M pVal =
        (holmValuesList allP M).getD (allP.findIdx (fun a => decide (a = pVal))) 0) ∧
    ((∃ v, scalarAssign (bhy_method allP M pVal) = Except.ok v) ↔
      allP.countP (fun a => decide (a = pVal)) = 1) := by
  have hblen : (bhyValuesList allP M (harmonicC M)).length = allP.length := by
    rw [bhyValuesList_length, h]
  have hlen : (bhy_method allP M pVal).length =
      allP.countP (fun a => decide (a = pVal)) :=
    maskSelect_length allP pVal _ hblen
  refine ⟨hlen, ?_, ?_, ?_⟩
  · intro hone
    have : (bhy_method allP M pVal).length = 1 := by rw [hlen, hone]
    match hb : bhy_method allP M pVal, this with
    | [v], _ => exact ⟨v, rfl⟩
  · intro hc
    have hhlen : (holmValuesList allP M).length = allP.length := by
      rw [holmValuesList_length, h]
    exact maskSelect_first allP pVal _ hhlen hc
  · rw [scalarAssign_ok, hlen]

theorem bhy_scalar_vs_vector_witness :
    (bhy_method [0, 1] 1 1).length = ([0, 1] : List ℚ).countP (fun a => decide (a = 1)) ∧
    (([0, 1] : List ℚ).countP (fun a => decide (a = 1)) = 1 →
      ∃ v, bhy_method [0, 1] 1 1 = [v]) ∧
    (0 < ([0, 1] : List ℚ).countP (fun a => decide (a = 1)) →
      holm_method [0, 1] 1 1 =
        (holmValuesList [0, 1] 1).getD
          (([0, 1] : List ℚ).findIdx (fun a => decide (a = 1))) 0) ∧
    ((∃ v, scalarAssign (bhy_method [0, 1] 1 1) = Except.ok v) ↔
      ([0, 1] : List ℚ).countP (fun a => decide (a = 1)) = 1) :=
  bhy_scalar_vs_vector [0, 1] 1 1 (by rfl)

theorem annualized_sr_error (invSqrt sqrtQ : ℚ → ℚ) (sharpe : ℚ)
    (samplingFrequency : String) (rho : ℚ) (a b : Bool) (e : BacktestError)
    (h : annualized_sr invSqrt sqrtQ sharpe samplingFrequency rho a b =
      Except.error e) : e = BacktestError.zeroDivision := by
  unfold annualized_sr at h
  split_ifs at h <;> simp_all

theorem annualized_sr_zero (invSqrt sqrtQ : ℚ → ℚ) (samplingFrequency : String)
    (rho : ℚ) (a b : Bool) (v : ℚ)
    (h : annualized_sr invSqrt sqrtQ 0 samplingFrequency rho a b = Except.ok v) :
    v = 0 := by
  unfold annualized_sr at h
  split_ifs at h <;> simp_all

theorem scalarAssign_error (l : List ℚ) (e : BacktestError)
    (h : scalarAssign l = Except.error e) : e = BacktestError.valueError := by
  cases l with
  | nil => simp [scalarAssign] at h; exact h.symm
  | cons v rest =>
    cases rest with
    | nil => simp [scalarAssign] at h
    | cons w r2 => simp [scalarAssign] at h; exact h.symm

theorem collectBhy_error (l : List (ℚ × List ℚ)) (e : BacktestError)
    (h : collectBhy l = Except.error e) : e = BacktestError.valueError := by
  induction l with
  | nil => simp [collectBhy] at h
  | cons r rest ih =>
    unfold collectBhy at h
    cases hsa : scalarAssign r.2 with
    | error e2 =>
      rw [hsa] at h
      simp at h
      subst h
      exact scalarAssign_error r.2 e2 hsa
    | ok v =>
      rw [hsa] at h
      cases hcb : collectBhy rest with
      | error e2 =>
        rw [hcb] at h
        simp at h
        subst h
        exact ih hcb
      | ok vs =>
        rw [hcb] at h
        simp at h

theorem haircutCore_ne_invalid (simulations : ℕ) (sqrtQ : ℚ → ℚ)
    (tCdf tPpf : ℚ → ℚ → ℚ) (normCdf : ℚ → ℚ) (tSample : ℕ → ℕ → ℚ)
    (samplingFrequency : String) (numObs : ℚ) (numMultTest : ℕ) (rho : ℚ)
    (srAnnual : ℚ) :
    haircutCore simulations sqrtQ tCdf tPpf normCdf tSample samplingFrequency
      numObs numMultTest rho srAnnual ≠
      Except.error BacktestError.invalidInput := by
  unfold haircutCore
  generalize hcb : collectBhy _ = y
  cases y with
  | error e =>
    have := collectBhy_error _ _ hcb
    subst this
    simp
  | ok pBhy => simp

theorem buildTable_zero_row (tPpf : ℚ → ℚ → ℚ) (sqrtQ : ℚ → ℚ) (m : ℕ) (p : ℚ)
    (ph pb : List ℚ) (mo : ℚ) :
    (buildTable tPpf sqrtQ m p ph pb mo 0).getD 2 [] = [none, none, none, none] := by
  simp [buildTable, sharpe_ratio_haircut]

/-- Claim C1 (amended): `haircut_sharpe_ratios` performs no input validation:
no invocation (in particular not `sharpe_ratio = 0`, `autocorrelation = 1`,
non-positive `num_obs` or non-positive `num_mult_test`) raises the
specification's `InvalidInputError`; and whenever `sharpe_ratio = 0` and the
call returns a table, the table's haircut row consists of the non-finite
values produced by the division `(sr_annual - sr_adjusted) / sr_annual`
(modelled `none`). -/
theorem haircut_no_invalid_input_error (simulations : ℕ) (invSqrt sqrtQ : ℚ → ℚ)
    (tCdf tPpf : ℚ → ℚ → ℚ) (normCdf : ℚ → ℚ) (tSample : ℕ → ℕ → ℚ)
    (samplingFrequency : String) (numObs sharpe : ℚ)
    (annualized autocorrAdjusted : Bool) (rhoA : ℚ) (numMultTest : ℕ) (rho : ℚ) :
    haircut_sharpe_ratios simulations invSqrt sqrtQ tCdf tPpf normCdf tSample
        samplingFrequency numObs sharpe annualized autocorrAdjusted rhoA
        numMultTest rho ≠ Except.error BacktestError.invalidInput ∧
    (sharpe = 0 → ∀ table,
      haircut_sharpe_ratios simulations invSqrt sqrtQ tCdf tPpf normCdf tSample
          samplingFrequency numObs sharpe annualized autocorrAdjusted rhoA
          numMultTest rho = Except.ok table →
      table.getD 2 [] = [none, none, none, none]) := by
  constructor
  · unfold haircut_sharpe_ratios
    cases hsr : annualized_sr invSqrt sqrtQ sharpe samplingFrequency rhoA
        annualized autocorrAdjusted with
    | error e =>
      have := annualized_sr_error _ _ _ _ _ _ _ _ hsr
      subst this
      simp
    | ok srAnnual =>
      exact haircutCore_ne_invalid simulations sqrtQ tCdf tPpf normCdf tSample
        samplingFrequency numObs numMultTest rho srAnnual
  · intro hs table htab
    subst hs
    unfold haircut_sharpe_ratios at htab
    cases hsr : annualized_sr invSqrt sqrtQ 0 samplingFrequency rhoA
        annualized autocorrAdjusted with
    | error e => rw [hsr] at htab; simp at htab
    | ok srAnnual =>
      rw [hsr] at htab
      simp only [] at htab
      have hz := annualized_sr_zero _ _ _ _ _ _ _ hsr
      subst hz
      unfold haircutCore at htab
      generalize hcb : collectBhy _ = y at htab
      cases y with
      | error e => simp at htab
      | ok pBhy =>
        simp at htab
        rw [← htab]
        exact buildTable_zero_row _ _ _ _ _ _ _

/-- Claim C1 counterexample: at the concrete input with sharpe_ratio = 0 (and
small abstract stand-ins for the statistical primitives and the random panel),
the call does not raise any error: it returns a full table, and that table's
haircut row consists of non-finite values (modelled `none`), contradicting
"raises an InvalidInputError before any simulation is performed; the call
never returns a table containing NaN or Infinity". -/
theorem haircut_no_validation_cex :
    haircut_sharpe_ratios 1 id (fun _ => 1) (fun _ _ => 3 / 4) (fun _ _ => 0)
        (fun t => 1 - t / 2) (fun _ _ => 1 / 4) "A" 1 0 true true 0 1 0 =
      Except.ok [[some (1 / 2), some (1 / 2), some (1 / 2), some (1 / 2)],
                 [some 0, some 0, some 0, some 0],
                 [none, none, none, none]] ∧
    haircut_sharpe_ratios 1 id (fun _ => 1) (fun _ _ => 3 / 4) (fun _ _ => 0)
        (fun t => 1 - t / 2) (fun _ _ => 1 / 4) "A" 1 0 true true 0 1 0 ≠
      Except.error BacktestError.invalidInput := by
  have hr1 : List.range 1 = [0] := rfl
  have hr2 : List.range 2 = [0, 1] := rfl
  have hrun : haircut_sharpe_ratios 1 id (fun _ => 1) (fun _ _ => 3 / 4) (fun _ _ => 0)
      (fun t => 1 - t / 2) (fun _ _ => 1 / 4) "A" 1 0 true true 0 1 0 =
      Except.ok [[some (1 / 2), some (1 / 2), some (1 / 2), some (1 / 2)],
                 [some 0, some 0, some 0, some 0],
                 [none, none, none, none]] := by
    have hsr : annualized_sr id (fun _ => 1) 0 "A" 0 true true = Except.ok 0 := by
      simp [annualized_sr]
    have hmo : monthly_observations 1 "A" = 12 := by
      norm_num [monthly_observations]
      decide
    have hpc : (parameter_calculation 0).getD 1 0 = 1295 := by
      norm_num [parameter_calculation, parameter_levels, vAdd, vSMul]
    have hnt : numTrails 1 1295 = 1296 := by norm_num [numTrails]
    have hsc : sliceCount 1 1296 = 1 := rfl
    have hpv : realPVal (fun _ _ => 3 / 4) (fun _ => 1) 0 12 = 1 / 2 := by
      norm_num [realPVal]
    have hrepP : repetitionPValues (fun t => 1 - t / 2) (fun _ _ => 1 / 4) (1 / 2) 1 0 =
        [1 / 4, 1 / 2] := by
      norm_num [repetitionPValues, selectSimulatedTrials, hr1,
        List.insertionSort, List.orderedInsert]
    have hholm : holm_method [1 / 4, 1 / 2] 1 (1 / 2) = 1 / 2 := by
      norm_num [holm_method, holmValuesList, holmTerms, listMax, maskSelect,
        hr1, hr2, max_def, min_def]
    have hbhy : bhy_method [1 / 4, 1 / 2] 1 (1 / 2) = [1 / 2] := by
      norm_num [bhy_method, bhyValuesList, bhyValueAux, harmonicC, maskSelect,
        hr1, hr2, min_def]
    have hreps : repResults (fun t => 1 - t / 2) (fun _ _ => 1 / 4) (1 / 2) 1 1 1 =
        [(1 / 2, [1 / 2])] := by
      simp only [repResults, hr1, List.map_cons, List.map_nil]
      rw [hrepP, hholm, hbhy]
    have hcb : collectBhy [((1 : ℚ) / 2, [(1 : ℚ) / 2])] = Except.ok [1 / 2] := by
      simp [collectBhy, scalarAssign]
    unfold haircut_sharpe_ratios
    rw [hsr]
    unfold haircutCore
    rw [hmo, hpc, hnt, hsc]
    dsimp only
    rw [hpv, hreps, hcb]
    norm_num [buildTable, bonferroni, npMedian, sharpe_ratio_haircut,
      List.insertionSort, List.orderedInsert, min_def]
  refine ⟨hrun, ?_⟩
  rw [hrun]
  simp

theorem haircut_no_invalid_input_error_witness :
    haircut_sharpe_ratios 1 id (fun _ => 1) (fun _ _ => 3 / 4) (fun _ _ => 0)
        (fun t => 1 - t / 2) (fun _ _ => 3 / 8) "A" 1 0 true true 0 1 0 ≠
      Except.error BacktestError.invalidInput ∧
    ([[some (1 / 2), some (3 / 4), some (1 / 2), some (7 / 12)],
      [some 0, some 0, some 0, some 0],
      [none, none, none, none]] : List (List (Option ℚ))).getD 2 [] =
      [none, none, none, none] := by
  have hr1 : List.range 1 = [0] := rfl
  have hr2 : List.range 2 = [0, 1] := rfl
  have hrun : haircut_sharpe_ratios 1 id (fun _ => 1) (fun _ _ => 3 / 4) (fun _ _ => 0)
      (fun t => 1 - t / 2) (fun _ _ => 3 / 8) "A" 1 0 true true 0 1 0 =
      Except.ok [[some (1 / 2), some (3 / 4), some (1 / 2), some (7 / 12)],
                 [some 0, some 0, some 0, some 0],
                 [none, none, none, none]] := by
    have hsr : annualized_sr id (fun _ => 1) 0 "A" 0 true true = Except.ok 0 := by
      simp [annualized_sr]
    have hmo : monthly_observations 1 "A" = 12 := by
      norm_num [monthly_observations]
      decide
    have hpc : (parameter_calculation 0).getD 1 0 = 1295 := by
      norm_num [parameter_calculation, parameter_levels, vAdd, vSMul]
    have hnt : numTrails 1 1295 = 1296 := by norm_num [numTrails]
    have hsc : sliceCount 1 1296 = 1 := rfl
    have hpv : realPVal (fun _ _ => 3 / 4) (fun _ => 1) 0 12 = 1 / 2 := by
      norm_num [realPVal]
    have hrepP : repetitionPValues (fun t => 1 - t / 2) (fun _ _ => 3 / 8) (1 / 2) 1 0 =
        [3 / 8, 1 / 2] := by
      norm_num [repetitionPValues, selectSimulatedTrials, hr1,
        List.insertionSort, List.orderedInsert]
    have hholm : holm_method [3 / 8, 1 / 2] 1 (1 / 2) = 3 / 4 := by
      norm_num [holm_method, holmValuesList, holmTerms, listMax, maskSelect,
        hr1, hr2, max_def, min_def]
    have hbhy : bhy_method [3 / 8, 1 / 2] 1 (1 / 2) = [1 / 2] := by
      norm_num [bhy_method, bhyValuesList, bhyValueAux, harmonicC, maskSelect,
        hr1, hr2, min_def]
    have hreps : repResults (fun t => 1 - t / 2) (fun _ _ => 3 / 8) (1 / 2) 1 1 1 =
        [(3 / 4, [1 / 2])] := by
      simp only [repResults, hr1, List.map_cons, List.map_nil]
      rw [hrepP, hholm, hbhy]
    have hcb : collectBhy [((3 : ℚ) / 4, [(1 : ℚ) / 2])] = Except.ok [1 / 2] := by
      simp [collectBhy, scalarAssign]
    unfold haircut_sharpe_ratios
    rw [hsr]
    unfold haircutCore
    rw [hmo, hpc, hnt, hsc]
    dsimp only
    rw [hpv, hreps, hcb]
    norm_num [buildTable, bonferroni, npMedian, sharpe_ratio_haircut,
      List.insertionSort, List.orderedInsert, min_def]
  obtain ⟨h1, h2⟩ := haircut_no_invalid_input_error 1 id (fun _ => 1) (fun _ _ => 3 / 4)
    (fun _ _ => 0) (fun t => 1 - t / 2) (fun _ _ => 3 / 8) "A" 1 0 true true 0 1 0
  exact ⟨h1, h2 rfl _ hrun⟩

/-- Claim C9: for every successful invocation (with at least one Monte Carlo
repetition), `haircut_sharpe_ratios` returns a 3-row by 4-column table whose
rows are, in order, the adjusted p-values, the adjusted Sharpe ratios and the
haircut percentages, whose columns are, in order, Bonferroni, Holm, BHY and
Average, and whose Average adjusted p-value equals the arithmetic mean of the
Bonferroni value, the median Holm value and the median BHY value. -/
theorem haircut_table_structure (simulations : ℕ) (invSqrt sqrtQ : ℚ → ℚ)
    (tCdf tPpf : ℚ → ℚ → ℚ) (normCdf : ℚ → ℚ) (tSample : ℕ → ℕ → ℚ)
    (samplingFrequency : String) (numObs sharpe : ℚ)
    (annualized autocorrAdjusted : Bool) (rhoA : ℚ) (numMultTest : ℕ) (rho : ℚ)
    (table : List (List (Option ℚ))) (hsim : 1 ≤ simulations)
    (h : haircut_sharpe_ratios simulations invSqrt sqrtQ tCdf tPpf normCdf tSample
        samplingFrequency numObs sharpe annualized autocorrAdjusted rhoA
        numMultTest rho = Except.ok table) :
    table.length = 3 ∧ (∀ row ∈ table, row.length = 4) ∧
    ∃ srAnnual pVal pHolm pBhy,
      annualized_sr invSqrt sqrtQ sharpe samplingFrequency rhoA annualized
          autocorrAdjusted = Except.ok srAnnual ∧
      pVal = realPVal tCdf sqrtQ srAnnual
        (monthly_observations numObs samplingFrequency) ∧
      table =
        [[some (bonferroni numMultTest pVal), some (npMedian pHolm),
          some (npMedian pBhy),
          some ((bonferroni numMultTest pVal + npMedian pHolm + npMedian pBhy) / 3)],
         [some (sharpe_ratio_haircut tPpf sqrtQ (bonferroni numMultTest pVal)
            (monthly_observations numObs samplingFrequency) srAnnual).1,
          some (sharpe_ratio_haircut tPpf sqrtQ (npMedian pHolm)
            (monthly_observations numObs samplingFrequency) srAnnual).1,
          some (sharpe_ratio_haircut tPpf sqrtQ (npMedian pBhy)
            (monthly_observations numObs samplingFrequency) srAnnual).1,
          some (sharpe_ratio_haircut tPpf sqrtQ
            ((bonferroni numMultTest pVal + npMedian pHolm + npMedian pBhy) / 3)
            (monthly_observations numObs samplingFrequency) srAnnual).1],
         [(sharpe_ratio_haircut tPpf sqrtQ (bonferroni numMultTest pVal)
            (monthly_observations numObs samplingFrequency) srAnnual).2,
          (sharpe_ratio_haircut tPpf sqrtQ (npMedian pHolm)
            (monthly_observations numObs samplingFrequency) srAnnual).2,
          (sharpe_ratio_haircut tPpf sqrtQ (npMedian pBhy)
            (monthly_observations numObs samplingFrequency) srAnnual).2,
          (sharpe_ratio_haircut tPpf sqrtQ
            ((bonferroni numMultTest pVal + npMedian pHolm + npMedian pBhy) / 3)
            (monthly_observations numObs samplingFrequency) srAnnual).2]] := by
  unfold haircut_sharpe_ratios at h
  cases hsr : annualized_sr invSqrt sqrtQ sharpe samplingFrequency rhoA
      annualized autocorrAdjusted with
  | error e => rw [hsr] at h; simp at h
  | ok srAnnual =>
    rw [hsr] at h
    dsimp only at h
    unfold haircutCore at h
    generalize hcb : collectBhy _ = y at h
    cases y with
    | error e => simp at h
    | ok pBhy =>
      simp only [Except.ok.injEq] at h
      refine ⟨?_, ?_, srAnnual,
        realPVal tCdf sqrtQ srAnnual (monthly_observations numObs samplingFrequency),
        (repResults normCdf tSample
          (realPVal tCdf sqrtQ srAnnual (monthly_observations numObs samplingFrequency))
          (sliceCount numMultTest
            (numTrails numMultTest ((parameter_calculation rho).getD 1 0)))
          numMultTest simulations).map Prod.fst,
        pBhy, rfl, rfl, ?_⟩
      · rw [← h]; simp [buildTable]
      · rw [← h]
        intro row hrow
        simp only [buildTable, List.mem_cons, List.not_mem_nil, or_false] at hrow
        rcases hrow with rfl | rfl | rfl <;> simp
      · rw [← h]; simp [buildTable]

theorem haircut_table_structure_witness :
    (1 : ℕ) ≤ 1 ∧
    haircut_sharpe_ratios 1 id (fun _ => 1) (fun _ _ => 3 / 4) (fun _ _ => 0)
        (fun t => 1 - t / 2) (fun _ _ => 1 / 8) "A" 1 1 true true 0 1 0 =
      Except.ok [[some (1 / 2), some (1 / 2), some (1 / 2), some (1 / 2)],
                 [some 0, some 0, some 0, some 0],
                 [some 100, some 100, some 100, some 100]] ∧
    ([[some (1 / 2), some (1 / 2), some (1 / 2), some (1 / 2)],
      [some 0, some 0, some 0, some 0],
      [some 100, some 100, some 100, some 100]] : List (List (Option ℚ))).length = 3 ∧
    ∀ row ∈ ([[some (1 / 2), some (1 / 2), some (1 / 2), some (1 / 2)],
      [some 0, some 0, some 0, some 0],
      [some 100, some 100, some 100, some 100]] : List (List (Option ℚ))),
      row.length = 4 := by
  have hr1 : List.range 1 = [0] := rfl
  have hr2 : List.range 2 = [0, 1] := rfl
  have hrun : haircut_sharpe_ratios 1 id (fun _ => 1) (fun _ _ => 3 / 4) (fun _ _ => 0)
      (fun t => 1 - t / 2) (fun _ _ => 1 / 8) "A" 1 1 true true 0 1 0 =
      Except.ok [[some (1 / 2), some (1 / 2), some (1 / 2), some (1 / 2)],
                 [some 0, some 0, some 0, some 0],
                 [some 100, some 100, some 100, some 100]] := by
    have hsr : annualized_sr id (fun _ => 1) 1 "A" 0 true true = Except.ok 1 := by
      simp [annualized_sr]
    have hmo : monthly_observations 1 "A" = 12 := by
      norm_num [monthly_observations]
      decide
    have hpc : (parameter_calculation 0).getD 1 0 = 1295 := by
      norm_num [parameter_calculation, parameter_levels, vAdd, vSMul]
    have hnt : numTrails 1 1295 = 1296 := by norm_num [numTrails]
    have hsc : sliceCount 1 1296 = 1 := rfl
    have hpv : realPVal (fun _ _ => 3 / 4) (fun _ => 1) 1 12 = 1 / 2 := by
      norm_num [realPVal]
    have hrepP : repetitionPValues (fun t => 1 - t / 2) (fun _ _ => 1 / 8) (1 / 2) 1 0 =
        [1 / 8, 1 / 2] := by
      norm_num [repetitionPValues, selectSimulatedTrials, hr1,
        List.insertionSort, List.orderedInsert]
    have hholm : holm_method [1 / 8, 1 / 2] 1 (1 / 2) = 1 / 2 := by
      norm_num [holm_method, holmValuesList, holmTerms, listMax, maskSelect,
        hr1, hr2, max_def, min_def]
    have hbhy : bhy_method [1 / 8, 1 / 2] 1 (1 / 2) = [1 / 2] := by
      norm_num [bhy_method, bhyValuesList, bhyValueAux, harmonicC, maskSelect,
        hr1, hr2, min_def]
    have hreps : repResults (fun t => 1 - t / 2) (fun _ _ => 1 / 8) (1 / 2) 1 1 1 =
        [(1 / 2, [1 / 2])] := by
      simp only [repResults, hr1, List.map_cons, List.map_nil]
      rw [hrepP, hholm, hbhy]
    have hcb : collectBhy [((1 : ℚ) / 2, [(1 : ℚ) / 2])] = Except.ok [1 / 2] := by
      simp [collectBhy, scalarAssign]
    unfold haircut_sharpe_ratios
    rw [hsr]
    unfold haircutCore
    rw [hmo, hpc, hnt, hsc]
    dsimp only
    rw [hpv, hreps, hcb]
    norm_num [buildTable, bonferroni, npMedian, sharpe_ratio_haircut,
      List.insertionSort, List.orderedInsert, min_def]
  obtain ⟨hl, hrows, hrest⟩ := haircut_table_structure 1 id (fun _ => 1)
    (fun _ _ => 3 / 4) (fun _ _ => 0) (fun t => 1 - t / 2) (fun _ _ => 1 / 8)
    "A" 1 1 true true 0 1 0 _ (le_refl 1) hrun
  exact ⟨le_refl 1, hrun, hl, hrows⟩
